import Mathlib

/-!
Verification of the media-transfer pipeline of the ikrautasnotionapi
repository (Monday.com ⇄ Notion attachment synchronizer).

The JavaScript/TypeScript handlers are shallowly embedded: JS strings are
modelled as `String` (or as `List Char` where character counting and
slicing matter, matching JS `.length`/`.slice` on BMP text), asynchronous
tasks as their outcomes (`Except`), the `p-queue` worker pool as a labelled
transition system, and each request handler as a pure function from the
responses of its remote collaborators to the HTTP response it produces plus
the externally observable effects it performs.
-/

namespace IkrautasNotion

/-! ## Size policy (api/install.ts, handler lines 67–81; part_003 lines 55–65) -/

/-- A Monday.com asset as used by the install handlers:
`assets { id public_url name mimetype file_size }`. -/
structure Asset where
  id : String
  name : String
  publicUrl : String
  mimetype : String
deriving DecidableEq, Repr

/-- The two placement modes of the produced Notion file object:
`type:"file_upload"` (EMBEDDED) or `type:"external"` (LINKED). -/
inductive FileKind where
  | fileUpload
  | external
deriving DecidableEq, Repr

/-- The file object pushed onto `files` by the per-asset task:
`{ name, type:"file_upload", file_upload:{id} }` or
`{ name, type:"external", external:{url} }`. -/
structure NotionFile where
  name : String
  kind : FileKind
  pointer : String
deriving DecidableEq, Repr

/-- Embeds the per-asset size decision of `install.ts` lines 72–78:
`if (buf.length <= 20*1024*1024)` upload to Notion and record the
`file_upload` id, else keep an `external` pointer to `public_url`.
`bufLen` is the downloaded byte length, `uploadId` the id the upload
handle would return.  The second component records whether the upload
protocol (`uploadToNotion`) was invoked at all. -/
def transferAsset (a : Asset) (bufLen : Nat) (uploadId : String) :
    NotionFile × Bool :=
  if bufLen ≤ 20 * 1024 * 1024 then
    (⟨a.name, FileKind.fileUpload, uploadId⟩, true)
  else
    (⟨a.name, FileKind.external, a.publicUrl⟩, false)

/-! ## Display-name truncation (api/install.js lines 26–28; install.ts line 365)

JS strings are modelled as their character lists; `.length` and
`.slice(0, 97)` become `List.length` and `List.take 97` (these agree with
JS semantics on BMP text, which covers every character appearing here). -/

/-- Lines 26–28 of install.js:
`name.length <= 100 ? name : name.slice(0, 97) + "..."`
(three ASCII dots). -/
def trimName (name : List Char) : List Char :=
  if name.length ≤ 100 then name else name.take 97 ++ ['.', '.', '.']

/-- Line 365 of install.ts (and `trim100` of part_001 line 22):
`n.length <= 100 ? n : n.slice(0, 97) + "…"`
(a single U+2026 horizontal-ellipsis character). -/
def trim (n : List Char) : List Char :=
  if n.length ≤ 100 then n else n.take 97 ++ ['…']

/-! ## Block crawler (part_000 `crawl` lines 69–82; part_004 `crawlBlocks` lines 224–245) -/

/-- A Notion block as seen by the crawler: its id, its `type` string, the
`has_children` flag, and the children the paginated
`blocks.children.list` calls would return for it. -/
inductive Block : Type where
  | mk (id : String) (ty : String) (hasChildren : Bool) (children : List Block)

def Block.id : Block → String
  | .mk i _ _ _ => i

def Block.ty : Block → String
  | .mk _ t _ _ => t

def Block.hasChildren : Block → Bool
  | .mk _ _ h _ => h

def Block.children : Block → List Block
  | .mk _ _ _ c => c

/-- The block types the crawler classifies as media
(`['image','video','file','pdf','audio']`). -/
def mediaTypes : List String := ["image", "video", "file", "pdf", "audio"]

/-- The function `crawl(blockId, depth, out)` of part_000 lines 69–82 (identical to
`crawlBlocks` of part_004 lines 224–245): `if (depth > 2) return;` then for
every child `b` of the block, push `b` when its type is media and recurse
with `depth+1` when `b.has_children`.  Pagination only chunks the same
children list, so the full `children` list of a block stands for the
concatenation of the paginated results.  Termination is the argument of
the source itself: the depth guard. -/
def crawl (depth : Nat) (b : Block) : List Block :=
  if depth > 2 then []
  else
    b.children.flatMap (fun c =>
      (if mediaTypes.contains c.ty then [c] else []) ++
      (if c.hasChildren then crawl (depth + 1) c else []))
termination_by 3 - depth
decreasing_by simp_wf; omega

/-- Fuel-indexed restatement of the crawl used for induction:
`mediaWithin k b` collects media among the next `k` levels below `b`. -/
def mediaWithin : Nat → Block → List Block
  | 0, _ => []
  | k + 1, b =>
      b.children.flatMap (fun c =>
        (if mediaTypes.contains c.ty then [c] else []) ++
        (if c.hasChildren then mediaWithin k c else []))

/-- Levels of the tree: `levelBlocks n b` lists the blocks at nesting level `n` below `b`
(level 0 = the children of `b`, level `n+1` = children of level-`n` blocks),
ignoring the `has_children` flag. -/
def levelBlocks : Nat → Block → List Block
  | 0, b => b.children
  | n + 1, b => b.children.flatMap (levelBlocks n)

/-! ## Preview-block classification -/

/-- The Notion block kind chosen for the preview block of a transferred file. -/
inductive PreviewKind where
  | video
  | image
  | file
deriving DecidableEq, Repr

/-- JS `String.prototype.toLowerCase` restricted to the alphabet in use. -/
def lowerStr (s : String) : String := ⟨s.toList.map Char.toLower⟩

/-- JS `String.prototype.endsWith`: suffix test, on the underlying
character lists. -/
def endsWith (s suffix : String) : Bool :=
  decide (suffix.toList <:+ s.toList)

/-- The `isVideo` test of blockForFile (install.ts line 466): the lowercased name
ends in `.mp4`. -/
def isVideoName (name : String) : Bool := endsWith (lowerStr name) ".mp4"

/-- The image extension table of blockForFile (install.ts line 467). -/
def imageExts : List String :=
  [".jpg", ".jpeg", ".png", ".gif", ".webp", ".tif", ".tiff"]

/-- The `isImage` test of blockForFile (install.ts line 467): some image extension
is a suffix of the lowercased name. -/
def isImageName (name : String) : Bool :=
  imageExts.any (fun e => endsWith (lowerStr name) e)

/-- The classifier of `blockForFile`, install.ts lines 463–479:
`blockType = isVideo ? "video" : isImage ? "image" : "file"`. -/
def blockForFileKind (name : String) : PreviewKind :=
  if isVideoName name then PreviewKind.video
  else if isImageName name then PreviewKind.image
  else PreviewKind.file

/-- The inline preview mapping of install.js lines 112–116 (also install.ts
lines 95–100 and part_003 lines 75–79):
`f.name.match(/\.mp4$/i) ? "video" : "image"` — a case-insensitive
`.mp4`-suffix test with image as the only other outcome. -/
def inlinePreviewKind (name : String) : PreviewKind :=
  if isVideoName name then PreviewKind.video
  else PreviewKind.image

/-! ## Attachment-list merge (part_003 lines 67–72; install.js lines 100–108) -/

/-- The merge `merged = [...existing, ...newFiles]` after
`existing = page.properties.files?.files || []`. -/
def mergeFiles (existing newFiles : List NotionFile) : List NotionFile :=
  existing ++ newFiles

/-! ## Batch semantics (Promise.all over queued tasks)

A transfer task is modelled by its outcome: `Except.error` when the
download or upload rejected, `Except.ok` with the produced file otherwise.
`Promise.all` settles to the first rejection, or to the list of all
results when none rejects; the try/catch of the handler turns a rejection
into `500 {ok:false}` and success into `200 {ok:true, added:n}`. -/

/-- Semantics of `Promise.all` over the already-settled task outcomes. -/
def promiseAll {ε α : Type} : List (Except ε α) → Except ε (List α)
  | [] => Except.ok []
  | t :: ts =>
      match t with
      | Except.error e => Except.error e
      | Except.ok a => (promiseAll ts).map (fun rest => a :: rest)

/-- An HTTP response as the handlers shape it. -/
structure Response where
  status : Nat
  ok : Bool
  added : Option Nat
deriving DecidableEq, Repr

/-- Lines 92–99 of api/notionToMonday.js (and lines 67–107 of the
install.ts handler): await `Promise.all` of the queued tasks inside
`try`, respond `200 {ok:true, added:n}`; the `catch` responds
`500 {ok:false, error}`. -/
def batchRespond (tasks : List (Except String NotionFile)) : Response :=
  match promiseAll tasks with
  | Except.error _ => { status := 500, ok := false, added := none }
  | Except.ok l => { status := 200, ok := true, added := some l.length }

/-! ## Matcher and webhook handler (part_000 lines 24–113) -/

/-- One item returned by `items_page_by_column_values`: its id and the text
of the URL column requested alongside it. -/
structure Hit where
  id : Nat
  text : String
deriving DecidableEq, Repr

/-- JS `String.prototype.includes`: substring containment. -/
def includesStr (s sub : String) : Bool := decide (sub.toList <:+: s.toList)

/-- The function `findMondayItem(url, exact)` of part_000 lines 85–113, as a function of
the hit list the GraphQL call returns: `value` is the url (lowercased for
the loose pass); no hits gives `null`; the exact pass returns `hits[0].id`;
the loose pass returns `hit?.id || null` for the first hit whose column
text, lowercased, contains `value` (JS `||` also maps a 0 id to `null`). -/
def findMondayItem (url : String) (exact : Bool) (hits : List Hit) :
    Option Nat :=
  let value := if exact then url else lowerStr url
  match hits with
  | [] => none
  | h0 :: _ =>
      if exact then some h0.id
      else
        match hits.find? (fun it => includesStr (lowerStr it.text) value) with
        | none => none
        | some hit => if hit.id = 0 then none else some hit.id

/-- The two-pass lookup of part_000 lines 43–47: exact match first, then
the loose fallback. -/
def matchTwoPass (url : String) (exactHits looseHits : List Hit) :
    Option Nat :=
  match findMondayItem url true exactHits with
  | some i => some i
  | none => findMondayItem url false looseHits

/-- The remote responses the webhook handler consumes on a
`page.content_updated` event: the page URL, the hit lists of the two
matcher calls, the block tree under the page, and the current SEEN ids. -/
structure WebhookWorld where
  pageURL : String
  exactHits : List Hit
  looseHits : List Hit
  tree : Block
  seen : List String

/-- What the webhook handler observably does: the HTTP status, the response
body, whether the crawler was invoked, and how many upload tasks were
submitted. -/
structure WebhookOutcome where
  status : Nat
  body : String
  crawled : Bool
  uploadsSubmitted : Nat
deriving DecidableEq, Repr

/-- Steps 2️⃣–the end of the part_000 handler (lines 43–61): resolve the
Monday item with the two-pass matcher; on `null` respond
`200 "no monday row"` without crawling or uploading; otherwise crawl,
keep the not-yet-SEEN media, answer `200 "nothing new"` when none remain,
else submit one upload per fresh block and answer `200 {ok, added}`. -/
def webhookRun (w : WebhookWorld) : WebhookOutcome :=
  match matchTwoPass w.pageURL w.exactHits w.looseHits with
  | none => { status := 200, body := "no monday row",
              crawled := false, uploadsSubmitted := 0 }
  | some _ =>
      let media := crawl 0 w.tree
      let fresh := media.filter (fun b => !(w.seen.contains b.id))
      if fresh.isEmpty then
        { status := 200, body := "nothing new",
          crawled := true, uploadsSubmitted := 0 }
      else
        { status := 200, body := "ok", crawled := true,
          uploadsSubmitted := fresh.length }

/-! ## The SEEN set across one webhook run (part_004 lines 199–213)

`SEEN` is a `Set`, modelled here by membership in a list of ids.  The
handler computes the fresh media, adds every fresh id to `SEEN`
(`fresh.forEach(b => SEEN.add(b.id))`) and only then awaits the uploads;
`uploadOk` tells which individual uploads would succeed. -/

/-- The media blocks under `tree` whose id is not yet in `seen`
(part_004 line 204). -/
def freshMedia (seen : List String) (tree : Block) : List Block :=
  (crawl 0 tree).filter (fun b => !(seen.contains b.id))

/-- One `page.content_updated` run of part_004 lines 199–215 projected onto
the SEEN set: returns (SEEN afterwards, ids actually transferred, whether
the batch succeeded).  Ids are added to SEEN before any upload runs, so a
failing upload leaves its id in SEEN with nothing transferred. -/
def runWebhookSeen (seen : List String) (tree : Block)
    (uploadOk : String → Bool) : List String × List String × Bool :=
  let fresh := freshMedia seen tree
  let seenAfter := seen ++ fresh.map Block.id
  let transferred := (fresh.filter (fun b => uploadOk b.id)).map Block.id
  (seenAfter, transferred, fresh.all (fun b => uploadOk b.id))

/-! ## Input validation of the install handlers
(install.ts lines 52–55 and 172–177; install.js lines 76–80) -/

/-- The result of JS `Number(req.body?.itemId)`: `NaN` for an absent or
non-numeric body field, or a numeric value. -/
inductive NumVal where
  | nan
  | val (n : Int)
deriving DecidableEq, Repr

/-- JS falsiness of a number: `!x` is true exactly for `NaN` and `0`
(the guards `!itemId` and `!itemId || Number.isNaN(itemId)` coincide). -/
def numFalsy : NumVal → Bool
  | NumVal.nan => true
  | NumVal.val n => n == 0

/-- The observable outcome of an install request: status, `ok` flag, and
the number of remote calls performed (Monday queries, downloads, Notion
writes together). -/
structure InstallOutcome where
  status : Nat
  ok : Bool
  remoteCalls : Nat
deriving DecidableEq, Repr

/-- The validation gate of the install handlers: `if(!itemId) return
res.status(400).json({ok:false, ...})` placed before the first remote call;
`pipeline` is whatever the rest of the handler would produce. -/
def installRespond (itemId : NumVal) (pipeline : InstallOutcome) :
    InstallOutcome :=
  if numFalsy itemId then { status := 400, ok := false, remoteCalls := 0 }
  else pipeline

/-! ## The worker pool (`new PQueue({ concurrency: 3 })`)

Modelled from the spec: the bounded worker-pool semantics of the `p-queue`
dependency, which is a library and not part of src/ — "at most 3 references
are being downloaded/uploaded at any instant; the bound is a fixed
worker-pool / semaphore size" and "the bounded-concurrency pool admits a
new task whenever a running slot frees".  The bound itself is the literal
`concurrency: 3` of install.ts line 12 and notionToMonday.js line 12. -/

/-- The concurrency bound, the literal `3` of
`new PQueue({ concurrency: 3 })`.  It is a closed constant: no handler
passes or overrides it per call. -/
def queueConcurrency : Nat := 3

/-- A queue state: tasks admitted but not yet started, and tasks in
flight. -/
structure QueueState where
  waiting : Nat
  active : Nat
deriving DecidableEq, Repr

/-- The transitions of the queue: `queue.add` enqueues a task; a waiting task
starts only while fewer than `queueConcurrency` tasks are active; a
running task finishes.  The transition relation takes no concurrency
parameter: the bound is the fixed constant. -/
inductive QueueStep : QueueState → QueueState → Prop where
  | enqueue (s : QueueState) :
      QueueStep s { s with waiting := s.waiting + 1 }
  | start (s : QueueState) (hw : 0 < s.waiting)
      (ha : s.active < queueConcurrency) :
      QueueStep s { waiting := s.waiting - 1, active := s.active + 1 }
  | finish (s : QueueState) (ha : 0 < s.active) :
      QueueStep s { s with active := s.active - 1 }

/-- States reachable from the idle queue a fresh process starts with. -/
inductive QueueReachable : QueueState → Prop where
  | init : QueueReachable { waiting := 0, active := 0 }
  | step {s t : QueueState} :
      QueueReachable s → QueueStep s t → QueueReachable t

/-! ## Concrete sample data used by the closed instances -/

/-- A pre-existing attachment entry used in concrete instances. -/
def oldFile : NotionFile :=
  { name := "old.png", kind := FileKind.fileUpload, pointer := "fid0" }

/-- A freshly transferred entry used in concrete instances. -/
def newFile : NotionFile :=
  { name := "new.mp4", kind := FileKind.external,
    pointer := "https://cdn/x" }

/-- A loose-pass hit whose column text does not contain the sample page
URL. -/
def hit7 : Hit := { id := 7, text := "https://notion.so/other" }

/-- A leaf media block used in the concrete instances. -/
def sampleLeaf : Block := Block.mk "b1" "image" false []

/-- A one-page block tree with one media child. -/
def samplePage : Block := Block.mk "p1" "page" true [sampleLeaf]

/-- A webhook world in which no Monday item stores the page URL. -/
def noMatchWorld : WebhookWorld :=
  { pageURL := "https://notion.so/p1", exactHits := [],
    looseHits := [hit7], tree := samplePage, seen := [] }

/-- A depth-5 synthetic tree: a media block and a container at every
level; `m0`…`m4` are the media blocks at levels 0…4. -/
def deepTree : Block :=
  Block.mk "r" "page" true
    [Block.mk "m0" "image" false [],
     Block.mk "c1" "paragraph" true
       [Block.mk "m1" "image" false [],
        Block.mk "c2" "paragraph" true
          [Block.mk "m2" "image" false [],
           Block.mk "c3" "paragraph" true
             [Block.mk "m3" "image" false [],
              Block.mk "c4" "paragraph" true
                [Block.mk "m4" "image" false []]]]]]

/-! ## Theorems -/

/-- C1: a downloaded payload takes the EMBEDDED path (a `file_upload`
object, with the upload protocol invoked) exactly when its byte length is
at most `20*1024*1024`, and the LINKED path (an `external` object pointing
at the source URL, with no upload attempt) exactly when it is strictly
greater; in particular exactly `20*1024*1024` bytes is EMBEDDED and
`20*1024*1024 + 1` bytes is LINKED. -/
theorem size_policy_boundary (a : Asset) (len : Nat) (fid : String) :
    ((transferAsset a len fid).1.kind = FileKind.fileUpload ↔
      len ≤ 20 * 1024 * 1024)
    ∧ ((transferAsset a len fid).2 = true ↔ len ≤ 20 * 1024 * 1024)
    ∧ ((transferAsset a len fid).1 =
        { name := a.name, kind := FileKind.external, pointer := a.publicUrl }
        ↔ 20 * 1024 * 1024 < len)
    ∧ (transferAsset a (20 * 1024 * 1024) fid).1.kind = FileKind.fileUpload
    ∧ (transferAsset a (20 * 1024 * 1024 + 1) fid).1.kind =
        FileKind.external := by
  unfold transferAsset
  by_cases h : len ≤ 20 * 1024 * 1024 <;>
    simp [h, NotionFile.mk.injEq] <;> omega

/-- C5 (amended): both truncation helpers are the identity on names of at
most 100 characters and are idempotent; on a 150-character name,
the install.js `trimName` yields a 100-character result ending in `"..."`,
while the install.ts `trim` yields a 98-character result ending in the
one-character ellipsis `"…"`. -/
theorem truncation_behaviour (n m k : List Char)
    (hn : n.length ≤ 100) (hm : m.length = 150) :
    trimName n = n ∧ trim n = n
    ∧ (trimName m).length = 100 ∧ ['.', '.', '.'] <:+ trimName m
    ∧ (trim m).length = 98 ∧ ['…'] <:+ trim m
    ∧ trimName (trimName k) = trimName k ∧ trim (trim k) = trim k := by
  have h100 : ¬ (m.length ≤ 100) := by omega
  refine ⟨?_, ?_, ?_, ?_, ?_, ?_, ?_, ?_⟩
  · simp [trimName, hn]
  · simp [trim, hn]
  · simp [trimName, h100]; omega
  · simp [trimName, h100]
  · simp [trim, h100]; omega
  · simp [trim, h100]
  · by_cases hk : k.length ≤ 100
    · simp [trimName, hk]
    · have hlen : (trimName k).length = 100 := by
        simp [trimName, hk]; omega
      unfold trimName
      rw [if_neg hk, if_pos]
      rw [trimName, if_neg hk] at hlen
      omega
    -- the second application sees a 100-character name and is the identity
  · by_cases hk : k.length ≤ 100
    · simp [trim, hk]
    · have hlen : (trim k).length = 98 := by
        simp [trim, hk]; omega
      unfold trim
      rw [if_neg hk, if_pos]
      rw [trim, if_neg hk] at hlen
      omega

set_option maxRecDepth 4000 in
/-- C5 witness: the amended statement holds at `'a'`, a 150-`'a'` name and
a 150-`'b'` name. -/
theorem truncation_behaviour_witness :
    (['a'] : List Char).length ≤ 100
    ∧ (List.replicate 150 'b').length = 150
    ∧ (trimName ['a'] = ['a'] ∧ trim ['a'] = ['a']
      ∧ (trimName (List.replicate 150 'b')).length = 100
      ∧ ['.', '.', '.'] <:+ trimName (List.replicate 150 'b')
      ∧ (trim (List.replicate 150 'b')).length = 98
      ∧ ['…'] <:+ trim (List.replicate 150 'b')
      ∧ trimName (trimName ['c']) = trimName ['c']
      ∧ trim (trim ['c']) = trim ['c']) :=
  ⟨by decide, by decide,
    truncation_behaviour ['a'] (List.replicate 150 'b') ['c']
      (by decide) (by decide)⟩

set_option maxRecDepth 4000 in
/-- C5 counterexample: the claim says truncating a 150-character name
yields a 100-character result, but install.ts's `trim` on 150 `'a'`s
returns 98 characters. -/
theorem truncation_cex :
    (trim (List.replicate 150 'a')).length = 98
    ∧ (trim (List.replicate 150 'a')).length ≠ 100 :=
  ⟨by decide, by decide⟩

/-- C6: the page-writer merge appends the new transfers to the existing
attachment list: with no identifier overlap the result has size `M + N`
and its first `M` entries are the original list unchanged. -/
theorem merge_is_union (existing newFiles : List NotionFile)
    (hdisj : ∀ f ∈ existing, ∀ g ∈ newFiles, f.name ≠ g.name) :
    (mergeFiles existing newFiles).length =
      existing.length + newFiles.length
    ∧ (mergeFiles existing newFiles).take existing.length = existing := by
  refine ⟨?_, ?_⟩
  · simp [mergeFiles]
  · simpa [mergeFiles] using List.take_left existing newFiles

/-- C6 witness: a one-element existing list and a disjoint one-element
batch merge to the two-element union with the original entry first. -/
theorem merge_is_union_witness :
    (∀ f ∈ [oldFile], ∀ g ∈ [newFile], f.name ≠ g.name)
    ∧ ((mergeFiles [oldFile] [newFile]).length = 1 + 1
      ∧ (mergeFiles [oldFile] [newFile]).take 1 = [oldFile]) :=
  ⟨by decide, by
    simpa using merge_is_union [oldFile] [newFile] (by decide)⟩

/-- C10: when `Number(itemId)` is `NaN` (absent or non-numeric body field)
or `0`, the install handlers answer `400 {ok:false}` before any remote
call, whatever the rest of the pipeline would have produced; in particular
the numeric id `0` is rejected. -/
theorem install_rejects_invalid_itemId (v : NumVal) (p : InstallOutcome)
    (h : v = NumVal.nan ∨ v = NumVal.val 0) :
    numFalsy v = true
    ∧ installRespond v p =
        { status := 400, ok := false, remoteCalls := 0 } := by
  rcases h with h | h <;> subst h <;> simp [numFalsy, installRespond]

/-- C10 witness: the id `0` is rejected with a `400` and zero remote
calls, even though the pipeline behind the gate would have made three. -/
theorem install_rejects_invalid_itemId_witness :
    (NumVal.val 0 = NumVal.nan ∨ NumVal.val 0 = NumVal.val 0)
    ∧ (numFalsy (NumVal.val 0) = true
      ∧ installRespond (NumVal.val 0)
          { status := 200, ok := true, remoteCalls := 3 } =
          { status := 400, ok := false, remoteCalls := 0 }) :=
  ⟨by decide,
    install_rejects_invalid_itemId (NumVal.val 0)
      { status := 200, ok := true, remoteCalls := 3 } (by decide)⟩

/-- If some submitted task rejected, `Promise.all` settles to a
rejection. -/
theorem promiseAll_error_of_mem {ε α : Type}
    (tasks : List (Except ε α)) (e : ε) (he : Except.error e ∈ tasks) :
    ∃ e', promiseAll tasks = Except.error e' := by
  induction tasks with
  | nil => cases he
  | cons t ts ih =>
      rcases List.mem_cons.mp he with h | h
      · exact ⟨e, by simp [promiseAll, ← h]⟩
      · match t with
        | Except.error e0 => exact ⟨e0, rfl⟩
        | Except.ok a =>
            obtain ⟨e', he'⟩ := ih h
            exact ⟨e', by simp [promiseAll, he', Except.map]⟩

/-- C2: if any one of the concurrently submitted transfer tasks fails,
the handler answers `500 {ok:false}` with no count — never a `200`
success reporting a partial count. -/
theorem batch_abort_on_failure (tasks : List (Except String NotionFile))
    (e : String) (he : Except.error e ∈ tasks) :
    batchRespond tasks =
      { status := 500, ok := false, added := none }
    ∧ (batchRespond tasks).status ≠ 200 := by
  obtain ⟨e', he'⟩ := promiseAll_error_of_mem tasks e he
  simp [batchRespond, he']

/-- C2 witness: a two-task batch whose second task rejected is answered
`500 {ok:false}`, not `200`. -/
theorem batch_abort_on_failure_witness :
    (Except.error "ECONNRESET" ∈
      [Except.ok oldFile, Except.error "ECONNRESET"])
    ∧ (batchRespond [Except.ok oldFile, Except.error "ECONNRESET"] =
        { status := 500, ok := false, added := none }
      ∧ (batchRespond
          [Except.ok oldFile, Except.error "ECONNRESET"]).status ≠ 200) :=
  ⟨by simp,
    batch_abort_on_failure _ "ECONNRESET" (by simp)⟩

/-- C7 (amended): `blockForFile` (install.ts) and `blockForExternal`
(part_001) classify previews three ways — `.mp4` (case-insensitively) is
video, the seven image extensions are image, anything else including
`.pdf` and extensionless names is a generic file — but the inline preview
mapping of install.js lines 112–116 distinguishes only `.mp4` from
image and classifies every non-mp4 name, `.pdf` included, as image. -/
theorem preview_classification (name : String) :
    (blockForFileKind name = PreviewKind.video ↔ isVideoName name = true)
    ∧ (blockForFileKind name = PreviewKind.image ↔
        (isVideoName name = false ∧ isImageName name = true))
    ∧ (blockForFileKind name = PreviewKind.file ↔
        (isVideoName name = false ∧ isImageName name = false))
    ∧ blockForFileKind "doc.pdf" = PreviewKind.file
    ∧ blockForFileKind "archive" = PreviewKind.file
    ∧ blockForFileKind "clip.MP4" = PreviewKind.video
    ∧ blockForFileKind "photo.JPeG" = PreviewKind.image
    ∧ blockForFileKind "scan.TIFF" = PreviewKind.image
    ∧ (inlinePreviewKind name = PreviewKind.video ↔ isVideoName name = true)
    ∧ inlinePreviewKind name ≠ PreviewKind.file
    ∧ inlinePreviewKind "doc.pdf" = PreviewKind.image := by
  refine ⟨?_, ?_, ?_, by decide, by decide, by decide, by decide,
    by decide, ?_, ?_, by decide⟩ <;>
  · by_cases hv : isVideoName name <;> by_cases hi : isImageName name <;>
      simp [blockForFileKind, inlinePreviewKind, hv, hi]

/-- C7 counterexample: the claim assigns `.pdf` to the generic-file
category, but the preview block built by install.js for `doc.pdf` is an
image block. -/
theorem preview_classification_cex :
    inlinePreviewKind "doc.pdf" = PreviewKind.image
    ∧ inlinePreviewKind "doc.pdf" ≠ PreviewKind.file :=
  ⟨by decide, by decide⟩

/-- C7 witness: the amended classification evaluated at `doc.pdf` — the
three-way classifier files it generically, the inline mapping makes it an
image preview. -/
theorem preview_classification_witness :
    blockForFileKind "doc.pdf" = PreviewKind.file
    ∧ inlinePreviewKind "doc.pdf" = PreviewKind.image :=
  ⟨(preview_classification "doc.pdf").2.2.2.1,
    (preview_classification
      "doc.pdf").2.2.2.2.2.2.2.2.2.2⟩

/-- C3: in every state the worker pool can reach from process start, at
most `queueConcurrency = 3` tasks are in flight; the bound is the fixed
constant of the pool, not a per-call parameter (the transition relation
takes none). -/
theorem queue_concurrency_bound (s : QueueState)
    (h : QueueReachable s) : s.active ≤ 3 ∧ queueConcurrency = 3 := by
  refine ⟨?_, rfl⟩
  induction h with
  | init => exact Nat.zero_le 3
  | step hr hstep ih =>
      cases hstep with
      | enqueue => exact ih
      | start hw ha => exact ha
      | finish ha => exact Nat.le_trans (Nat.sub_le _ _) ih

/-- C3 witness: the saturated state reached by enqueuing three tasks and
starting all three respects the bound. -/
theorem queue_concurrency_bound_witness :
    QueueReachable { waiting := 0, active := 3 }
    ∧ (({ waiting := 0, active := 3 } : QueueState).active ≤ 3
      ∧ queueConcurrency = 3) := by
  have h : QueueReachable { waiting := 0, active := 3 } :=
    QueueReachable.step
      (QueueReachable.step
        (QueueReachable.step
          (QueueReachable.step
            (QueueReachable.step
              (QueueReachable.step QueueReachable.init
                (QueueStep.enqueue _))
              (QueueStep.enqueue _))
            (QueueStep.enqueue _))
          (QueueStep.start _ (by decide) (by decide)))
        (QueueStep.start _ (by decide) (by decide)))
      (QueueStep.start _ (by decide) (by decide))
  exact ⟨h, queue_concurrency_bound _ h⟩

/-- C8: when neither the exact matcher pass nor the loose fallback finds a
Monday item, the two-pass matcher returns `null` and the webhook handler
answers a `200` success-shaped "no monday row" response without crawling
or submitting any upload. -/
theorem no_match_is_success (w : WebhookWorld)
    (hexact : w.exactHits = [])
    (hloose : ∀ h ∈ w.looseHits,
      includesStr (lowerStr h.text) (lowerStr w.pageURL) = false) :
    matchTwoPass w.pageURL w.exactHits w.looseHits = none
    ∧ webhookRun w =
        { status := 200, body := "no monday row",
          crawled := false, uploadsSubmitted := 0 } := by
  have hmatch : matchTwoPass w.pageURL w.exactHits w.looseHits = none := by
    unfold matchTwoPass findMondayItem
    rw [hexact]
    simp only
    match hl : w.looseHits with
    | [] => simp
    | h0 :: hs =>
        have hfind :
            (h0 :: hs).find?
              (fun it =>
                includesStr (lowerStr it.text) (lowerStr w.pageURL)) =
              none := by
          apply List.find?_eq_none.mpr
          intro x hx
          rw [hl] at hloose
          simp [hloose x hx]
        simp [hfind]
  refine ⟨hmatch, ?_⟩
  unfold webhookRun
  rw [hmatch]

/-- C8 witness: a webhook whose page URL matches no board row (empty exact
result, one unrelated loose hit) gets the "no monday row" `200` with no
crawl and no uploads. -/
theorem no_match_is_success_witness :
    noMatchWorld.exactHits = []
    ∧ (∀ h ∈ noMatchWorld.looseHits,
        includesStr (lowerStr h.text) (lowerStr noMatchWorld.pageURL) =
          false)
    ∧ (matchTwoPass noMatchWorld.pageURL noMatchWorld.exactHits
        noMatchWorld.looseHits = none
      ∧ webhookRun noMatchWorld =
          { status := 200, body := "no monday row", crawled := false,
            uploadsSubmitted := 0 }) :=
  ⟨rfl, by decide, no_match_is_success noMatchWorld rfl (by decide)⟩

/-- The depth-guarded crawl equals the fuel-indexed collector with fuel
`3 - depth`. -/
theorem crawl_eq_mediaWithin (k : Nat) :
    ∀ d b, 3 - d = k → crawl d b = mediaWithin k b := by
  induction k with
  | zero =>
      intro d b hk
      have hd : d > 2 := by omega
      rw [crawl]
      simp [hd, mediaWithin]
  | succ k ih =>
      intro d b hk
      have hd : ¬ d > 2 := by omega
      rw [crawl, mediaWithin]
      simp only [hd, if_false]
      refine List.flatMap_congr fun c _ => ?_
      rw [ih (d + 1) c (by omega)]

/-- The crawl started at depth 0 collects media from three levels. -/
theorem crawl_zero (b : Block) : crawl 0 b = mediaWithin 3 b :=
  crawl_eq_mediaWithin 3 0 b rfl

/-- Every block collected with fuel `k` is a media block sitting at some
nesting level below `k`. -/
theorem mem_mediaWithin {x : Block} :
    ∀ (k : Nat) (b : Block), x ∈ mediaWithin k b →
      mediaTypes.contains x.ty = true ∧
        ∃ n, n < k ∧ x ∈ levelBlocks n b := by
  intro k
  induction k with
  | zero => intro b h; simp [mediaWithin] at h
  | succ k ih =>
      intro b h
      rw [mediaWithin] at h
      rcases List.mem_flatMap.mp h with ⟨c, hc, hx⟩
      rcases List.mem_append.mp hx with hx | hx
      · by_cases hm : mediaTypes.contains c.ty = true
        · rw [if_pos hm] at hx
          have hxc : x = c := by simpa using hx
          subst hxc
          exact ⟨hm, 0, Nat.succ_pos k, by simpa [levelBlocks] using hc⟩
        · rw [if_neg hm] at hx
          cases hx
      · by_cases hch : c.hasChildren = true
        · rw [if_pos hch] at hx
          obtain ⟨hmedia, n, hn, hlev⟩ := ih c hx
          refine ⟨hmedia, n + 1, by omega, ?_⟩
          rw [levelBlocks]
          exact List.mem_flatMap.mpr ⟨c, hc, hlev⟩
        · rw [if_neg hch] at hx
          cases hx

/-- Unfolding of a non-exhausted crawl step: a collected block is either a
media child, or lies below a child that is marked as having children --
recursion never descends into a child whose `has_children` flag is
false. -/
theorem mem_crawl_succ (d : Nat) (hd : d ≤ 2) (b x : Block) :
    x ∈ crawl d b ↔
      ((x ∈ b.children ∧ mediaTypes.contains x.ty = true)
        ∨ ∃ c, c ∈ b.children ∧ c.hasChildren = true ∧
            x ∈ crawl (d + 1) c) := by
  rw [crawl]
  have hgt : ¬ d > 2 := by omega
  simp only [hgt, if_false, List.mem_flatMap, List.mem_append]
  constructor
  · rintro ⟨c, hc, h | h⟩
    · by_cases hm : mediaTypes.contains c.ty = true
      · rw [if_pos hm] at h
        have hxc : x = c := by simpa using h
        subst hxc
        exact Or.inl ⟨hc, hm⟩
      · rw [if_neg hm] at h
        cases h
    · by_cases hch : c.hasChildren = true
      · rw [if_pos hch] at h
        exact Or.inr ⟨c, hc, hch, h⟩
      · rw [if_neg hch] at h
        cases h
  · rintro (⟨hx, hm⟩ | ⟨c, hc, hch, h⟩)
    · exact ⟨x, hx, Or.inl (by rw [if_pos hm]; exact List.mem_singleton.mpr rfl)⟩
    · exact ⟨c, hc, Or.inr (by rw [if_pos hch]; exact h)⟩

/-- C4: every block the crawler returns is a media block from nesting
level 0, 1 or 2; any call at depth 3 returns nothing; a non-exhausted
step recurses only into children marked as having children; and on the
depth-5 `deepTree` the crawl returns exactly the media of levels 0–2,
never `m3` or `m4`. -/
theorem crawler_depth_bound (root x b : Block) (d : Nat) :
    (x ∈ crawl 0 root →
      mediaTypes.contains x.ty = true ∧
        ∃ n, n ≤ 2 ∧ x ∈ levelBlocks n root)
    ∧ crawl 3 b = []
    ∧ (d ≤ 2 →
      (x ∈ crawl d root ↔
        ((x ∈ root.children ∧ mediaTypes.contains x.ty = true)
          ∨ ∃ c, c ∈ root.children ∧ c.hasChildren = true ∧
              x ∈ crawl (d + 1) c)))
    ∧ (crawl 0 deepTree).map Block.id = ["m0", "m1", "m2"] := by
  refine ⟨?_, ?_, fun hd => mem_crawl_succ d hd root x, ?_⟩
  · intro h
    rw [crawl_zero] at h
    obtain ⟨hm, n, hn, hl⟩ := mem_mediaWithin 3 root h
    exact ⟨hm, n, by omega, hl⟩
  · rw [crawl]; simp
  · rw [crawl_zero]; decide

/-- C4 witness: the level-1 media block of the depth-5 tree is returned
by the crawl and certified to be media at a level at most 2. -/
theorem crawler_depth_bound_witness :
    Block.mk "m1" "image" false [] ∈ crawl 0 deepTree
    ∧ (mediaTypes.contains (Block.mk "m1" "image" false []).ty = true
      ∧ ∃ n, n ≤ 2 ∧
          Block.mk "m1" "image" false [] ∈ levelBlocks n deepTree) := by
  have hmem : Block.mk "m1" "image" false [] ∈ crawl 0 deepTree := by
    rw [crawl_zero]
    simp [mediaWithin, deepTree, mediaTypes, Block.children, Block.ty,
      Block.hasChildren]
  exact ⟨hmem,
    (crawler_depth_bound deepTree (Block.mk "m1" "image" false [])
      deepTree 0).1 hmem⟩

/-- C9 counterexample: with an empty SEEN set, one fresh media block
`b1` and an upload that fails, the run leaves `b1` in SEEN although
nothing was transferred and the batch failed — refuting "an identifier is
in the Seen-set only if the block has already been transferred". -/
theorem seen_before_transfer_cex :
    (runWebhookSeen [] samplePage (fun _ => false)).1.contains "b1" = true
    ∧ (runWebhookSeen [] samplePage (fun _ => false)).2.1 = []
    ∧ (runWebhookSeen [] samplePage (fun _ => false)).2.2 = false := by
  refine ⟨?_, ?_, ?_⟩ <;>
  · simp only [runWebhookSeen, freshMedia, crawl_zero]
    decide

/-- C9 (amended): an identifier enters SEEN at submission time — before
its upload runs, so a failed upload leaves it in SEEN untransferred — and
a block whose identifier is in SEEN is never submitted again: only
unseen media are submitted, SEEN grows by exactly the submitted ids,
every transferred id was submitted, and an immediate re-run of the same
tree submits nothing. -/
theorem seen_marks_at_submission (seen : List String) (tree : Block)
    (ok : String → Bool) :
    (∀ b ∈ freshMedia seen tree, seen.contains b.id = false)
    ∧ (runWebhookSeen seen tree ok).1 =
        seen ++ (freshMedia seen tree).map Block.id
    ∧ (∀ i ∈ (runWebhookSeen seen tree ok).2.1,
        i ∈ (freshMedia seen tree).map Block.id)
    ∧ freshMedia (runWebhookSeen seen tree ok).1 tree = [] := by
  refine ⟨?_, rfl, ?_, ?_⟩
  · intro b hb
    have := (List.mem_filter.mp hb).2
    simpa using this
  · intro i hi
    simp only [runWebhookSeen] at hi
    rcases List.mem_map.mp hi with ⟨b, hb, rfl⟩
    exact List.mem_map_of_mem _ (List.mem_of_mem_filter hb)
  · have h1 : (runWebhookSeen seen tree ok).1 =
        seen ++ (freshMedia seen tree).map Block.id := rfl
    rw [h1, freshMedia]
    apply List.filter_eq_nil_iff.mpr
    intro b hb
    have hmem : b.id ∈ seen ++ (freshMedia seen tree).map Block.id := by
      rcases Decidable.em (b.id ∈ seen) with hs | hs
      · exact List.mem_append.mpr (Or.inl hs)
      · refine List.mem_append.mpr (Or.inr ?_)
        exact List.mem_map_of_mem _
          (List.mem_filter.mpr ⟨hb, by simpa using hs⟩)
    simp
    intro hns
    rcases List.mem_append.mp hmem with h | h
    · exact absurd h hns
    · simpa using h

/-- C9 witness for the amended statement: with SEEN = `{b0}` and the
sample page, the run marks exactly the fresh id `b1` and a re-run
submits nothing. -/
theorem seen_marks_at_submission_witness :
    (runWebhookSeen ["b0"] samplePage (fun _ => true)).1 =
      ["b0"] ++ (freshMedia ["b0"] samplePage).map Block.id
    ∧ freshMedia
        (runWebhookSeen ["b0"] samplePage (fun _ => true)).1
        samplePage = [] :=
  ⟨(seen_marks_at_submission ["b0"] samplePage (fun _ => true)).2.1,
    (seen_marks_at_submission ["b0"] samplePage (fun _ => true)).2.2.2⟩

end IkrautasNotion
